import Mathlib

/-!
Verification of the tasmota sensor message-to-metric pipeline
(`tasmota/sensor.go` of `sfudeus/mqtt_data_exporter`).

The Go code is shallowly embedded: the dynamically typed values produced by
the YAML unmarshaller (`interface{}` in Go) become the inductive `GoValue`;
Go maps become association lists with first-match lookup; `float64` values are
modelled exactly as rationals (the code only stores and copies numeric values,
it performs no floating-point arithmetic); fallible operations return
`Except`/`Option`.  The Prometheus gauge registry becomes an association list
from series key to `GaugeVec`, where setting a gauge child is a last-write-wins
update of an association list keyed by the label-value tuple.
-/

namespace Tasmota

/-- Generic association-list lookup: first entry with the given key.
Models a Go map read `m[k]` (Go maps have unique keys, so first-match
agrees with map semantics). -/
def lookupA {κ ν : Type} [DecidableEq κ] : List (κ × ν) → κ → Option ν
  | [], _ => none
  | (k₁, v₁) :: rest, k => if k₁ = k then some v₁ else lookupA rest k

/-- Generic association-list store: overwrite the first entry with the given
key in place, or append a fresh entry at the end.  Models a Go map write
`m[k] = v` (and the Prometheus gauge-child update, which is last-write-wins). -/
def setAssoc {κ ν : Type} [DecidableEq κ] : List (κ × ν) → κ → ν → List (κ × ν)
  | [], k, v => [(k, v)]
  | (k₁, v₁) :: rest, k, v => if k₁ = k then (k, v) :: rest else (k₁, v₁) :: setAssoc rest k v

/-- Generic association-list membership test for a key. -/
def hasKey {κ ν : Type} [DecidableEq κ] (m : List (κ × ν)) (k : κ) : Bool :=
  (lookupA m k).isSome

/-- Embedding of `strings.HasPrefix` from the Go standard library. -/
def strStartsWith (s pre : String) : Bool :=
  pre.data.isPrefixOf s.data

/-- Embedding of a `"suffix$"`-anchored regular-expression match (and of
`strings.HasSuffix`): the string ends with the given suffix. -/
def strEndsWith (s suf : String) : Bool :=
  suf.data.isSuffixOf s.data

/-- Embedding of `strings.Split` with a one-character separator, on the
character list: splitting an empty string yields one empty group, and every
separator occurrence starts a new group. -/
def splitChar (sep : Char) : List Char → List (List Char)
  | [] => [[]]
  | c :: rest =>
    if c = sep then [] :: splitChar sep rest
    else
      match splitChar sep rest with
      | [] => [[c]]
      | g :: gs => (c :: g) :: gs

/-- Embedding of `strings.Split(s, sep)` for a one-character separator. -/
def stringsSplit (s : String) (sep : Char) : List String :=
  (splitChar sep s.data).map String.mk

/-- Embedding of `strings.ToLower` (ASCII suffices for the sensor-type
names that are the only inputs used). -/
def strToLower (s : String) : String :=
  ⟨s.data.map Char.toLower⟩

/-- The dynamically typed Go values relevant to the decoder: numbers
(integers or floats), strings, booleans, null, sequences, and the two
DISTINCT Go map types that matter here.  `vMap` is `map[string]interface{}`,
the type `gopkg.in/yaml.v3` produces for every mapping decoded into an
`interface{}` slot (a documented change from yaml.v2).  `vMapII` is
`map[interface{}]interface{}`, the type the line-80 assertion of
`getSingleReadout` demands (what yaml.v2 used to produce); yaml.v3 never
produces it, but it is a distinct dynamic type a Go `interface{}` can hold,
so the embedding keeps both.  Its keys are modelled as strings: the only
probe ever performed on it is `data[string(sensorType)]` with a string key,
which non-string keys could never match. -/
inductive GoValue : Type where
  | vInt (n : ℤ)
  | vFloat (x : ℚ)
  | vStr (s : String)
  | vBool (b : Bool)
  | vNull
  | vMap (entries : List (String × GoValue))
  | vMapII (entries : List (String × GoValue))
  | vSeq (items : List GoValue)

/-- `type SensorType string` in the source: a string-typed classification tag. -/
abbrev SensorType := String

/-- Constant `Temperature` of `sensor.go`. -/
def Temperature : SensorType := "Temperature"

/-- Constant `Pressure` of `sensor.go`. -/
def Pressure : SensorType := "Pressure"

/-- Constant `Humidity` of `sensor.go`. -/
def Humidity : SensorType := "Humidity"

/-- Constant `PM10` of `sensor.go`. -/
def PM10 : SensorType := "PM10"

/-- Constant `PM2` of `sensor.go` (canonical string `"PM2.5"`). -/
def PM2 : SensorType := "PM2.5"

/-- Constant `Illuminance` of `sensor.go`. -/
def Illuminance : SensorType := "Illuminance"

/-- `var sensor_names = []string{"SI7021", "SDS0X1", "BH1750", "BMP280"}` -/
def sensor_names : List String := ["SI7021", "SDS0X1", "BH1750", "BMP280"]

/-- `var sensor_types = []SensorType{Temperature, Pressure, Humidity, PM10, PM2, Illuminance}` -/
def sensor_types : List SensorType :=
  [Temperature, Pressure, Humidity, PM10, PM2, Illuminance]

/-- `var non_sensor_fields = []string{"Time"}` (declared in the source,
referenced nowhere in `sensor.go`). -/
def non_sensor_fields : List String := ["Time"]

/-- `var unit_fields = regexp.MustCompile("Unit$")`: matching this regular
expression is exactly the test that a field name ends in `"Unit"`. -/
def unit_fields (s : String) : Bool :=
  strEndsWith s "Unit"

/-- `type tasmotaSensorData struct { Type SensorType; SensorName string; Value float64 }`.
The Go field `Type` is spelled `Type_` because `Type` is reserved in Lean. -/
structure tasmotaSensorData : Type where
  Type_ : SensorType
  SensorName : String
  Value : ℚ
deriving DecidableEq, Repr

/-- `type tasmotaSensor struct { DeviceName string; Sensors []tasmotaSensorData }` -/
structure tasmotaSensor : Type where
  DeviceName : String
  Sensors : List tasmotaSensorData
deriving DecidableEq, Repr

/-- `getSingleReadout` (sensor.go lines 76-115).  The Go function first runs
the exact-type assertion `input.(map[interface{}]interface{})` (line 80): it
succeeds only when the dynamic type is `map[interface{}]interface{}`
(`vMapII`) and fails with the line-83 error on EVERY other dynamic type —
including `map[string]interface{}` (`vMap`), which is what the imported
yaml.v3 produces for every nested mapping.  On real payloads the assertion
therefore always fails and no readout is ever returned.  When the assertion
does succeed, the function looks up the field named after the sensor type,
failing with an error when absent; the `switch interfaceValue.(type)` has
cases only for `float64` and `int` and NO default clause, so on any other
dynamic type the local `value` keeps its zero value `0.0` and a readout is
still returned.  (The inner `!ok` branches of the two switch cases are
unreachable in Go and are therefore not represented.) -/
def getSingleReadout (sensorName : String) (sensorType : SensorType)
    (input : GoValue) : Except String tasmotaSensorData :=
  match input with
  | .vMapII data =>
    match lookupA data sensorType with
    | none => .error "Got wrong type for sensor data"
    | some interfaceValue =>
      match interfaceValue with
      | .vFloat x => .ok ⟨sensorType, sensorName, x⟩
      | .vInt n => .ok ⟨sensorType, sensorName, (n : ℚ)⟩
      | _ => .ok ⟨sensorType, sensorName, 0⟩
  | _ => .error "Got wrong type for sensor data"

/-- The inner loop of `getSensorData` for one whitelisted hardware name: when
the name is present as a top-level key, try each sensor type (in
`sensor_types` order), keeping every successful readout and skipping errors
(`if err != nil { continue }`). -/
def hardwareReadouts (data : List (String × GoValue)) (name : String) :
    List tasmotaSensorData :=
  match lookupA data name with
  | some tmp => sensor_types.filterMap (fun t => (getSingleReadout name t tmp).toOption)
  | none => []

/-- `getSensorData` (sensor.go lines 60-74): the outer loop over the hardware
whitelist, in whitelist order, concatenating the readouts of each present
hardware entry. -/
def getSensorData (data : List (String × GoValue)) : List tasmotaSensorData :=
  (sensor_names.map (hardwareReadouts data)).flatten

/-- `getKeys` (sensor.go lines 117-126): split the field names of a mapping
into non-unit keys and unit keys.  (Declared in the source but never called
from `sensor.go`.) -/
def getKeys (input : List (String × GoValue)) : List String × List String :=
  input.foldl
    (fun acc p =>
      if unit_fields p.1 then (acc.1, acc.2 ++ [p.1]) else (acc.1 ++ [p.1], acc.2))
    ([], [])

/-- `UnmarshalYAML` of `tasmotaSensor` (sensor.go lines 47-58): unmarshal the
payload into the EXPLICITLY typed `map[string]interface{}` (`vMap`) — a
structural failure unless the top level of the document is a mapping — and
fill `Sensors` from `getSensorData`.  `DeviceName` is left empty for the
caller.  (The top level succeeds because its Go type is written out; only the
nested `interface{}` values are at the mercy of yaml.v3's dynamic choice.) -/
def unmarshalSensor (payload : GoValue) : Except String (List tasmotaSensorData) :=
  match payload with
  | .vMap tmp => .ok (getSensorData tmp)
  | _ => .error "unmarshal error"

/-- `isTasmotaSensorMessage` (sensor.go lines 128-131):
`split := strings.Split(topic, "/"); return len(split) == 3 && split[2] == "SENSOR"`
(the index access is guarded by the short-circuiting length check). -/
def isTasmotaSensorMessage (topic : String) : Bool :=
  let split := stringsSplit topic '/'
  split.length == 3 && split.getD 2 "" == "SENSOR"

/-- One Prometheus `GaugeVec`: the registration-time name, help text and
label names, plus its children — an association list from the label-value
tuple to the gauge value (`WithLabelValues(...).Set(v)` is a last-write-wins
store into this list). -/
structure GaugeVec : Type where
  gName : String
  gHelp : String
  labelNames : List String
  values : List (List String × ℚ)
deriving DecidableEq, Repr

/-- `GaugeVec.WithLabelValues(labels...).Set(v)`. -/
def GaugeVec.set (g : GaugeVec) (labels : List String) (v : ℚ) : GaugeVec :=
  ⟨g.gName, g.gHelp, g.labelNames, setAssoc g.values labels v⟩

/-- The `sensors map[string]*GaugeVec` field of the collector. -/
abbrev Sink := List (String × GaugeVec)

/-- Embedding of `strings.Replace(s, ".", "", 1)` on the character list:
drop the first occurrence of the separator. -/
def removeFirstChar (sep : Char) : List Char → List Char
  | [] => []
  | c :: rest => if c = sep then rest else c :: removeFirstChar sep rest

/-- `strings.Replace(s, ".", "", 1)`: drop the first `"."` of a string. -/
def replaceFirstDot (s : String) : String :=
  ⟨removeFirstChar '.' s.data⟩

/-- The gauge name format
`fmt.Sprintf("%s_tasmota_sensor_%s", metricsPrefix, strings.Replace(strings.ToLower(...), ".", "", 1))`
of `newPrometheusTasmotaSensorCollector`. -/
def gaugeNameOf (pfx : String) (t : SensorType) : String :=
  pfx ++ ("_tasmota_sensor_" ++ replaceFirstDot (strToLower t))

/-- `newPrometheusTasmotaSensorCollector` (sensor.go lines 133-162): register
one gauge per non-PM sensor type with labels `tasmota_instance, sensor_name`,
then the shared `"pm"` gauge with labels
`tasmota_instance, sensor_name, resolution`.  The resulting `Sink` is the
collector's `sensors` map. -/
def newPrometheusTasmotaSensorCollector (pfx : String) : Sink :=
  let gauges := sensor_types.foldl
    (fun gauges t =>
      if ¬ strStartsWith t "PM" then
        setAssoc gauges t
          ⟨gaugeNameOf pfx t, t ++ " tasmota sensor data",
            ["tasmota_instance", "sensor_name"], []⟩
      else gauges)
    []
  setAssoc gauges "pm"
    ⟨pfx ++ ("_tasmota_" ++ "pm"), "PM tasmota entity",
      ["tasmota_instance", "sensor_name", "resolution"], []⟩

/-- One observable sink mutation:
`collector.sensors[seriesKey].WithLabelValues(labelValues...).Set(value)`. -/
structure SetGaugeCall : Type where
  seriesKey : String
  labelValues : List String
  value : ℚ
deriving DecidableEq, Repr

/-- Perform one gauge update on the sink.  `collector.sensors[key]` is `nil`
when `key` was never registered, and the following `WithLabelValues` call
would dereference it: that panic is modelled as `none`. -/
def setGauge (sink : Sink) (c : SetGaugeCall) : Option Sink :=
  match lookupA sink c.seriesKey with
  | none => none
  | some g => some (setAssoc sink c.seriesKey (g.set c.labelValues c.value))

/-- The branch of the `updateState` loop body (sensor.go lines 184-194)
choosing the gauge update for one reading: non-PM types update the series
named after the type with labels `(DeviceName, SensorName)`; PM-prefixed types
update the shared `"pm"` series with the type string as the extra
`resolution` label value. -/
def callOf (deviceName : String) (data : tasmotaSensorData) : SetGaugeCall :=
  if ¬ strStartsWith data.Type_ "PM" then
    ⟨data.Type_, [deviceName, data.SensorName], data.Value⟩
  else
    ⟨"pm", [deviceName, data.SensorName, data.Type_], data.Value⟩

/-- The loop of `updateState` (sensor.go lines 184-194), one reading at a
time, also recording each gauge update performed, in order. -/
def updateStateAux (deviceName : String) :
    List tasmotaSensorData → Sink → Option (Sink × List SetGaugeCall)
  | [], sink => some (sink, [])
  | data :: rest, sink =>
    match setGauge sink (callOf deviceName data) with
    | none => none
    | some sink₁ =>
      match updateStateAux deviceName rest sink₁ with
      | none => none
      | some (sink₂, calls) => some (sink₂, callOf deviceName data :: calls)

/-- Folding a list of gauge updates over the sink (the call trace of
`updateState`, replayed). -/
def applyCallsO (sink : Sink) : List SetGaugeCall → Option Sink
  | [] => some sink
  | c :: L =>
    match setGauge sink c with
    | none => none
    | some sink₁ => applyCallsO sink₁ L

/-- A call's full address (series key and label-value tuple) already has a
child in the sink. -/
def addrIn (sink : Sink) (c : SetGaugeCall) : Bool :=
  match lookupA sink c.seriesKey with
  | some g => hasKey g.values c.labelValues
  | none => false

/-- `updateState` (sensor.go lines 184-194): apply every reading of a report
to the collector's gauges. -/
def updateState (sensor : tasmotaSensor) (sink : Sink) :
    Option (Sink × List SetGaugeCall) :=
  updateStateAux sensor.DeviceName sensor.Sensors sink

/-- An inbound bus message as the core consumes it: the three collaborator
accessors `topic()`, `Payload()` (already parsed into the generic value tree)
and `GetDeviceName()`. -/
structure Message : Type where
  topic : String
  payload : GoValue
  deviceName : String

/-- Modelled from the spec: `receiveMessage` lives outside `tasmota/sensor.go`
(it is not under `src/`); per the spec's Ingestion Loop description it runs the
Topic Filter on the message and fails (so the loop continues with the next
message) exactly when the filter rejects the topic. -/
def receiveMessage (m : Message) (filter : String → Bool) : Except String Message :=
  if filter m.topic then .ok m else .error "irrelevant message"

/-- A message is fatal to the ingestion loop when it passes the topic filter
but its payload fails structural decoding. -/
def isFatal (m : Message) : Bool :=
  isTasmotaSensorMessage m.topic &&
    (match unmarshalSensor m.payload with
     | .error _ => true
     | .ok _ => false)

/-- `collector` (sensor.go lines 164-182), run over the list of messages the
inbound channel delivers before it closes.  Returns the reports processed (in
order, each one handed to `updateState`) and whether the loop returned early
because of a structural decode failure (`fatal(...)` then `return`) instead of
stopping at channel close. -/
def collectorRun : List Message → List tasmotaSensor × Bool
  | [] => ([], false)
  | msg :: rest =>
    match receiveMessage msg isTasmotaSensorMessage with
    | .error _ => collectorRun rest
    | .ok message =>
      match unmarshalSensor message.payload with
      | .error _ => ([], true)
      | .ok sensors =>
        let res := collectorRun rest
        (⟨message.deviceName, sensors⟩ :: res.1, res.2)

/-- Claim-side helper: the numeric payload values (YAML integers or floats)
and their coercion to a 64-bit float (modelled exactly). -/
def numericValue : GoValue → Option ℚ
  | .vInt n => some ((n : ℤ) : ℚ)
  | .vFloat x => some x
  | _ => none

/-- The Reading order the spec describes: whitelist (hardware) order first,
then `sensor_types` order. -/
def readingOrder (a b : tasmotaSensorData) : Prop :=
  sensor_names.indexOf a.SensorName < sensor_names.indexOf b.SensorName ∨
    (a.SensorName = b.SensorName ∧ sensor_types.indexOf a.Type_ < sensor_types.indexOf b.Type_)

/-- Claim-side shape test: is this value a `map[interface{}]interface{}`?
yaml.v3 never produces one, so a yaml.v3-decoded payload satisfies
`isMapII p.2 = false` for every top-level entry. -/
def isMapII : GoValue → Bool
  | .vMapII _ => true
  | _ => false

/-- Concrete example payload (the spec's Example 2): a particulate-matter
hardware entry with a reserved unit field.  The nested mapping is given as a
`map[interface{}]interface{}` value — the shape the line-80 assertion
demands — so that the decoder's per-field logic is actually exercised. -/
def examplePayloadPM : List (String × GoValue) :=
  [("SDS0X1", .vMapII [("PM10", .vInt 3), ("PM10Unit", .vStr "ugm3"), ("PM2.5", .vInt 5)])]

/-- Concrete example report with one non-PM and one PM reading. -/
def exampleReport : tasmotaSensor :=
  ⟨"dev1", [⟨Temperature, "SI7021", 21⟩, ⟨PM10, "SDS0X1", 3⟩]⟩

/-- Concrete small sink with a `"Temperature"` and a `"pm"` series. -/
def exampleSink : Sink :=
  [("Temperature", ⟨"n1", "h1", ["a", "b"], []⟩),
    ("pm", ⟨"n2", "h2", ["a", "b", "c"], []⟩)]

/-- Concrete inbound message with a relevant topic and a decodable payload. -/
def exampleGoodMessage : Message :=
  ⟨"tele/dev1/SENSOR", .vMap [("SI7021", .vMap [("Temperature", .vInt 21)])], "dev1"⟩

/-- Concrete inbound message with a relevant topic whose payload is not
map-shaped at the top level (the spec's Example 4). -/
def exampleBadMessage : Message :=
  ⟨"tele/dev2/SENSOR", .vSeq [], "dev2"⟩

/-! ## Shared lemmas about the association-list primitives and the decoder -/

theorem lookupA_mem {κ ν : Type} [DecidableEq κ] {m : List (κ × ν)} {k : κ} {v : ν}
    (h : lookupA m k = some v) : (k, v) ∈ m := by
  induction m with
  | nil => simp [lookupA] at h
  | cons p rest ih =>
    obtain ⟨k₁, v₁⟩ := p
    by_cases hk : k₁ = k
    · subst hk
      simp only [lookupA, if_true, eq_self_iff_true, Option.some.injEq] at h
      subst h
      exact List.mem_cons_self _ _
    · simp only [lookupA, if_neg hk] at h
      exact List.mem_cons_of_mem _ (ih h)

theorem getSingleReadout_of_lookup {fields : List (String × GoValue)} {t : SensorType}
    {v : GoValue} (name : String) (hl : lookupA fields t = some v) :
    getSingleReadout name t (.vMapII fields) = .ok ⟨t, name, (numericValue v).getD 0⟩ := by
  rw [getSingleReadout, hl]
  cases v <;> simp [numericValue]

theorem getSingleReadout_of_lookup_none {fields : List (String × GoValue)} {t : SensorType}
    (name : String) (hl : lookupA fields t = none) :
    getSingleReadout name t (.vMapII fields) = .error "Got wrong type for sensor data" := by
  rw [getSingleReadout, hl]

theorem getSingleReadout_not_mapII {name : String} {t : SensorType} {input : GoValue}
    (hnm : isMapII input = false) :
    getSingleReadout name t input = .error "Got wrong type for sensor data" := by
  cases input <;> first
    | rfl
    | (simp [isMapII] at hnm)

theorem getSingleReadout_ok {name : String} {t : SensorType} {input : GoValue}
    {r : tasmotaSensorData} (h : getSingleReadout name t input = .ok r) :
    r.Type_ = t ∧ r.SensorName = name ∧
      ∃ fields v, input = .vMapII fields ∧ lookupA fields t = some v ∧
        r.Value = (numericValue v).getD 0 := by
  cases input with
  | vMapII fields =>
    cases hl : lookupA fields t with
    | none => rw [getSingleReadout_of_lookup_none name hl] at h; simp at h
    | some v =>
      rw [getSingleReadout_of_lookup name hl] at h
      injection h with h
      subst h
      exact ⟨rfl, rfl, fields, v, rfl, hl, rfl⟩
  | vInt n => rw [@getSingleReadout_not_mapII name t (GoValue.vInt n) rfl] at h; simp at h
  | vFloat x => rw [@getSingleReadout_not_mapII name t (GoValue.vFloat x) rfl] at h; simp at h
  | vStr s => rw [@getSingleReadout_not_mapII name t (GoValue.vStr s) rfl] at h; simp at h
  | vBool b => rw [@getSingleReadout_not_mapII name t (GoValue.vBool b) rfl] at h; simp at h
  | vNull => rw [@getSingleReadout_not_mapII name t GoValue.vNull rfl] at h; simp at h
  | vMap entries =>
    rw [@getSingleReadout_not_mapII name t (GoValue.vMap entries) rfl] at h; simp at h
  | vSeq l => rw [@getSingleReadout_not_mapII name t (GoValue.vSeq l) rfl] at h; simp at h

theorem toOption_eq_some {ε α : Type} {e : Except ε α} {a : α}
    (h : e.toOption = some a) : e = .ok a := by
  cases e with
  | ok b => simp [Except.toOption] at h; subst h; rfl
  | error _ => simp [Except.toOption] at h

theorem mem_hardwareReadouts {data : List (String × GoValue)} {name : String}
    {r : tasmotaSensorData} (h : r ∈ hardwareReadouts data name) :
    r.SensorName = name ∧ r.Type_ ∈ sensor_types ∧
      ∃ fields v, lookupA data name = some (.vMapII fields) ∧
        lookupA fields r.Type_ = some v ∧ r.Value = (numericValue v).getD 0 := by
  rw [hardwareReadouts] at h
  cases htmp : lookupA data name with
  | none => rw [htmp] at h; simp at h
  | some tmp =>
    rw [htmp] at h
    obtain ⟨t, ht, hr⟩ := List.mem_filterMap.mp h
    have hok := toOption_eq_some hr
    obtain ⟨hT, hN, fields, v, htmpEq, hlv, hval⟩ := getSingleReadout_ok hok
    subst htmpEq
    refine ⟨hN, ?_, fields, v, rfl, ?_, hval⟩
    · rw [hT]; exact ht
    · rw [hT]; exact hlv

theorem mem_getSensorData {data : List (String × GoValue)} {r : tasmotaSensorData} :
    r ∈ getSensorData data ↔ ∃ name ∈ sensor_names, r ∈ hardwareReadouts data name := by
  simp [getSensorData, List.mem_flatten]

theorem unit_fields_of_sensor_type : ∀ t ∈ sensor_types, unit_fields t = false := by
  decide

theorem length_getD_eq_triple (l : List String) :
    (l.length == 3 && l.getD 2 "" == "SENSOR") = true ↔ ∃ a b, l = [a, b, "SENSOR"] := by
  rcases l with _ | ⟨a, _ | ⟨b, _ | ⟨c, _ | ⟨d, l⟩⟩⟩⟩ <;> simp [List.getD]

theorem lookupA_perm {κ ν : Type} [DecidableEq κ] {m m' : List (κ × ν)} (hp : m.Perm m') :
    (m.map Prod.fst).Nodup → ∀ k, lookupA m k = lookupA m' k := by
  induction hp with
  | nil => intro _ k; rfl
  | cons x p ih =>
    intro hnd k
    obtain ⟨k₁, v₁⟩ := x
    by_cases hk : k₁ = k
    · subst hk; simp [lookupA]
    · simp only [lookupA, if_neg hk]
      exact ih (by simpa using (List.nodup_cons.mp (by simpa using hnd)).2) k
  | swap x y l =>
    intro hnd k
    obtain ⟨k₁, v₁⟩ := x
    obtain ⟨k₂, v₂⟩ := y
    have hne : k₂ ≠ k₁ := by
      intro hEq
      subst hEq
      simp [List.map_cons, List.nodup_cons] at hnd
    by_cases h1 : k₂ = k <;> by_cases h2 : k₁ = k <;>
      simp [lookupA, h1, h2]
    exact absurd (h1.trans h2.symm) hne
  | trans p q ih1 ih2 =>
    intro hnd k
    have hnd2 := (p.map Prod.fst).nodup hnd
    exact (ih1 hnd k).trans (ih2 hnd2 k)

theorem hardwareReadouts_congr {m m' : List (String × GoValue)}
    (h : ∀ k, lookupA m k = lookupA m' k) (name : String) :
    hardwareReadouts m name = hardwareReadouts m' name := by
  rw [hardwareReadouts, hardwareReadouts, h name]

theorem getSensorData_congr {m m' : List (String × GoValue)}
    (h : ∀ k, lookupA m k = lookupA m' k) :
    getSensorData m = getSensorData m' := by
  rw [getSensorData, getSensorData]
  exact congrArg List.flatten
    (List.map_congr_left (fun name _ => hardwareReadouts_congr h name))

theorem hardwareReadouts_pairwise (m : List (String × GoValue)) (name : String) :
    (hardwareReadouts m name).Pairwise readingOrder := by
  rw [hardwareReadouts]
  cases htmp : lookupA m name with
  | none => exact List.Pairwise.nil
  | some tmp =>
    have hbase : sensor_types.Pairwise
        (fun t t' => sensor_types.indexOf t < sensor_types.indexOf t') := by decide
    refine List.Pairwise.filterMap _ ?_ hbase
    intro t t' hlt b hb b' hb'
    obtain ⟨hT, hN, -⟩ := getSingleReadout_ok (toOption_eq_some hb)
    obtain ⟨hT', hN', -⟩ := getSingleReadout_ok (toOption_eq_some hb')
    exact Or.inr ⟨hN.trans hN'.symm, by rw [hT, hT']; exact hlt⟩

theorem getSensorData_pairwise (m : List (String × GoValue)) :
    (getSensorData m).Pairwise readingOrder := by
  rw [getSensorData, List.pairwise_flatten]
  constructor
  · intro l hl
    obtain ⟨name, -, rfl⟩ := List.mem_map.mp hl
    exact hardwareReadouts_pairwise m name
  · rw [List.pairwise_map]
    have hbase : sensor_names.Pairwise
        (fun n n' => sensor_names.indexOf n < sensor_names.indexOf n') := by decide
    refine hbase.imp ?_
    intro n n' hlt x hx y hy
    exact Or.inl (by
      rw [(mem_hardwareReadouts hx).1, (mem_hardwareReadouts hy).1]
      exact hlt)

/-! ## Shared lemmas about the metric sink -/

theorem lookupA_setAssoc {κ ν : Type} [DecidableEq κ] (m : List (κ × ν)) (k k' : κ) (v : ν) :
    lookupA (setAssoc m k v) k' = if k' = k then some v else lookupA m k' := by
  induction m with
  | nil =>
    by_cases h : k' = k
    · subst h; simp [setAssoc, lookupA]
    · simp [setAssoc, lookupA, h, Ne.symm h]
  | cons p rest ih =>
    obtain ⟨k₁, v₁⟩ := p
    by_cases h1 : k₁ = k
    · subst h1
      by_cases h : k' = k₁
      · subst h; simp [setAssoc, lookupA]
      · simp [setAssoc, lookupA, h, Ne.symm h]
    · by_cases h2 : k₁ = k'
      · subst h2
        simp [setAssoc, lookupA, h1, Ne.symm (fun hEq => h1 hEq.symm : k ≠ k₁)]
      · simp [setAssoc, lookupA, h1, h2, ih]

theorem setAssoc_absorb {κ ν : Type} [DecidableEq κ] (m : List (κ × ν)) (k : κ) (u v : ν) :
    setAssoc (setAssoc m k u) k v = setAssoc m k v := by
  induction m with
  | nil => simp [setAssoc]
  | cons p rest ih =>
    obtain ⟨k₁, v₁⟩ := p
    by_cases h1 : k₁ = k
    · subst h1; simp [setAssoc]
    · simp [setAssoc, h1, ih]

theorem setAssoc_comm {κ ν : Type} [DecidableEq κ] {m : List (κ × ν)} {k k' : κ}
    (hne : k ≠ k') (hmem : hasKey m k' = true) (u v : ν) :
    setAssoc (setAssoc m k u) k' v = setAssoc (setAssoc m k' v) k u := by
  induction m with
  | nil => simp [hasKey, lookupA] at hmem
  | cons p rest ih =>
    obtain ⟨k₁, v₁⟩ := p
    by_cases h1 : k₁ = k
    · subst h1
      have h2 : ¬ k₁ = k' := hne
      simp [setAssoc, h2, Ne.symm hne]
    · by_cases h2 : k₁ = k'
      · subst h2
        simp [setAssoc, h1, Ne.symm (fun hEq => h1 hEq.symm : k ≠ k₁)]
      · have hmem' : hasKey rest k' = true := by
          simp only [hasKey, lookupA, if_neg h2] at hmem
          exact hmem
        simp [setAssoc, h1, h2, ih hmem']

theorem hasKey_setAssoc {κ ν : Type} [DecidableEq κ] (m : List (κ × ν)) (k k' : κ) (v : ν) :
    hasKey (setAssoc m k v) k' = (k' = k || hasKey m k') := by
  rw [hasKey, lookupA_setAssoc]
  by_cases h : k' = k <;> simp [h, hasKey]

theorem setGauge_of_lookup {S : Sink} {key : String} {g : GaugeVec}
    (h : lookupA S key = some g) (l : List String) (v : ℚ) :
    setGauge S ⟨key, l, v⟩ = some (setAssoc S key (g.set l v)) := by
  simp [setGauge, h]

theorem setGauge_eq_some {S S₁ : Sink} {c : SetGaugeCall} (h : setGauge S c = some S₁) :
    ∃ g, lookupA S c.seriesKey = some g ∧
      S₁ = setAssoc S c.seriesKey (g.set c.labelValues c.value) := by
  rw [setGauge] at h
  cases hl : lookupA S c.seriesKey with
  | none => rw [hl] at h; simp at h
  | some g =>
    rw [hl] at h
    simp only [Option.some.injEq] at h
    exact ⟨g, rfl, h.symm⟩

theorem setGauge_isSome_of_key {S : Sink} {c : SetGaugeCall}
    (h : (lookupA S c.seriesKey).isSome = true) : ∃ S₁, setGauge S c = some S₁ := by
  obtain ⟨g, hg⟩ := Option.isSome_iff_exists.mp h
  exact ⟨_, by rw [setGauge, hg]⟩

theorem setGauge_key_isSome {S S₁ : Sink} {c : SetGaugeCall} (h : setGauge S c = some S₁)
    (k : String) : (lookupA S₁ k).isSome = (lookupA S k).isSome := by
  obtain ⟨g, hg, rfl⟩ := setGauge_eq_some h
  rw [lookupA_setAssoc]
  by_cases hk : k = c.seriesKey
  · subst hk; simp [hg]
  · simp [hk]

theorem setGauge_addrIn_self {S S₁ : Sink} {c : SetGaugeCall}
    (h : setGauge S c = some S₁) : addrIn S₁ c = true := by
  obtain ⟨g, hg, rfl⟩ := setGauge_eq_some h
  rw [addrIn, lookupA_setAssoc]
  simp [GaugeVec.set, hasKey_setAssoc]

theorem addrIn_iff {S : Sink} {c : SetGaugeCall} :
    addrIn S c = true ↔
      ∃ g, lookupA S c.seriesKey = some g ∧ hasKey g.values c.labelValues = true := by
  rw [addrIn]
  cases hl : lookupA S c.seriesKey <;> simp

theorem setGauge_addrIn_mono {S S₁ : Sink} {c c' : SetGaugeCall}
    (h : setGauge S c = some S₁) (h' : addrIn S c' = true) : addrIn S₁ c' = true := by
  obtain ⟨g, hg, rfl⟩ := setGauge_eq_some h
  obtain ⟨g', hg', hkey⟩ := addrIn_iff.mp h'
  rw [addrIn_iff]
  by_cases hk : c'.seriesKey = c.seriesKey
  · refine ⟨g.set c.labelValues c.value, ?_, ?_⟩
    · rw [lookupA_setAssoc, if_pos hk]
    · rw [hk, hg] at hg'
      injection hg' with hg'
      subst hg'
      rw [GaugeVec.set]
      simp [hasKey_setAssoc, hkey]
  · exact ⟨g', by rw [lookupA_setAssoc, if_neg hk]; exact hg', hkey⟩

theorem setGauge_absorb {S S₁ : Sink} {key : String} {l : List String} {u v : ℚ}
    (h : setGauge S ⟨key, l, u⟩ = some S₁) :
    setGauge S₁ ⟨key, l, v⟩ = setGauge S ⟨key, l, v⟩ := by
  obtain ⟨g, hg, rfl⟩ := setGauge_eq_some h
  have hl₁ : lookupA (setAssoc S key ((g : GaugeVec).set l u)) key = some (g.set l u) := by
    rw [lookupA_setAssoc]; simp
  rw [setGauge_of_lookup hl₁, setGauge_of_lookup hg]
  rw [setAssoc_absorb]
  have : (g.set l u).set l v = g.set l v := by
    rw [GaugeVec.set, GaugeVec.set, GaugeVec.set]
    simp [setAssoc_absorb]
  rw [this]

theorem setGauge_comm {S S₁ T : Sink} {c c' : SetGaugeCall}
    (hdiff : c.seriesKey ≠ c'.seriesKey ∨ c.labelValues ≠ c'.labelValues)
    (haddr : addrIn S c' = true)
    (h : setGauge S c = some S₁) (h' : setGauge S c' = some T) :
    setGauge S₁ c' = setGauge T c := by
  obtain ⟨g, hg, rfl⟩ := setGauge_eq_some h
  obtain ⟨g', hg', rfl⟩ := setGauge_eq_some h'
  obtain ⟨g'', hg'', hkey⟩ := addrIn_iff.mp haddr
  rw [hg'] at hg''
  injection hg'' with hg''
  subst hg''
  by_cases hk : c.seriesKey = c'.seriesKey
  · have hll : c.labelValues ≠ c'.labelValues := by
      rcases hdiff with hd | hd
      · exact absurd hk hd
      · exact hd
    have hgg : g = g' := by
      rw [← hk, hg] at hg'
      injection hg' with h2
    subst hgg
    have hl₁ : lookupA (setAssoc S c.seriesKey (g.set c.labelValues c.value)) c'.seriesKey =
        some (g.set c.labelValues c.value) := by
      rw [lookupA_setAssoc, if_pos hk.symm]
    have hl₂ : lookupA (setAssoc S c'.seriesKey (g.set c'.labelValues c'.value)) c.seriesKey =
        some (g.set c'.labelValues c'.value) := by
      rw [lookupA_setAssoc, if_pos hk]
    rw [setGauge_of_lookup hl₁, setGauge_of_lookup hl₂, hk]
    rw [setAssoc_absorb, setAssoc_absorb]
    have hgauge : (g.set c.labelValues c.value).set c'.labelValues c'.value =
        (g.set c'.labelValues c'.value).set c.labelValues c.value := by
      rw [GaugeVec.set, GaugeVec.set, GaugeVec.set, GaugeVec.set]
      have hcomm := setAssoc_comm hll hkey c.value c'.value
      simp [hcomm]
    rw [hgauge]
  · have hl₁ : lookupA (setAssoc S c.seriesKey (g.set c.labelValues c.value)) c'.seriesKey =
        some g' := by
      rw [lookupA_setAssoc, if_neg (Ne.symm hk), hg']
    have hl₂ : lookupA (setAssoc S c'.seriesKey (g'.set c'.labelValues c'.value)) c.seriesKey =
        some g := by
      rw [lookupA_setAssoc, if_neg hk, hg]
    have hmemS : hasKey S c'.seriesKey = true := by
      rw [hasKey, hg']; rfl
    rw [setGauge_of_lookup hl₁, setGauge_of_lookup hl₂]
    rw [setAssoc_comm hk hmemS]

theorem addrIn_key_isSome {S : Sink} {c : SetGaugeCall} (h : addrIn S c = true) :
    (lookupA S c.seriesKey).isSome = true := by
  obtain ⟨g, hg, -⟩ := addrIn_iff.mp h
  rw [hg]
  rfl

theorem updateStateAux_eq_applyCallsO (dev : String) (sensors : List tasmotaSensorData)
    (S : Sink) :
    updateStateAux dev sensors S =
      (applyCallsO S (sensors.map (callOf dev))).map
        (fun W => (W, sensors.map (callOf dev))) := by
  induction sensors generalizing S with
  | nil => rfl
  | cons d rest ih =>
    cases hsg : setGauge S (callOf dev d) with
    | none => simp [updateStateAux, applyCallsO, hsg]
    | some S₁ =>
      simp only [updateStateAux, applyCallsO, List.map_cons, hsg]
      rw [ih S₁]
      cases happ : applyCallsO S₁ (rest.map (callOf dev)) <;> simp

theorem applyCallsO_append (S : Sink) (L M : List SetGaugeCall) :
    applyCallsO S (L ++ M) = (applyCallsO S L).bind (fun W => applyCallsO W M) := by
  induction L generalizing S with
  | nil => rfl
  | cons c L ih =>
    rw [List.cons_append, applyCallsO, applyCallsO]
    cases hsg : setGauge S c with
    | none => rfl
    | some S₁ => exact ih S₁

theorem applyCallsO_keys {S W : Sink} {L : List SetGaugeCall}
    (h : applyCallsO S L = some W) (k : String) :
    (lookupA W k).isSome = (lookupA S k).isSome := by
  induction L generalizing S with
  | nil => rw [applyCallsO] at h; injection h with h; subst h; rfl
  | cons c L ih =>
    rw [applyCallsO] at h
    cases hsg : setGauge S c with
    | none => rw [hsg] at h; simp at h
    | some S₁ =>
      rw [hsg] at h
      rw [ih h, setGauge_key_isSome hsg]

theorem applyCallsO_addr_mono {S W : Sink} {L : List SetGaugeCall}
    (h : applyCallsO S L = some W) {c' : SetGaugeCall} (ha : addrIn S c' = true) :
    addrIn W c' = true := by
  induction L generalizing S with
  | nil => rw [applyCallsO] at h; injection h with h; subst h; exact ha
  | cons c L ih =>
    rw [applyCallsO] at h
    cases hsg : setGauge S c with
    | none => rw [hsg] at h; simp at h
    | some S₁ =>
      rw [hsg] at h
      exact ih h (setGauge_addrIn_mono hsg ha)

theorem applyCallsO_addrs {S W : Sink} {L : List SetGaugeCall}
    (h : applyCallsO S L = some W) : ∀ c ∈ L, addrIn W c = true := by
  induction L generalizing S with
  | nil => intro c hc; cases hc
  | cons c L ih =>
    intro c'' hc''
    rw [applyCallsO] at h
    cases hsg : setGauge S c with
    | none => rw [hsg] at h; simp at h
    | some S₁ =>
      rw [hsg] at h
      rcases List.mem_cons.mp hc'' with rfl | hmem
      · exact applyCallsO_addr_mono h (setGauge_addrIn_self hsg)
      · exact ih h c'' hmem

theorem applyCallsO_isSome {S : Sink} {L : List SetGaugeCall}
    (hkeys : ∀ c ∈ L, (lookupA S c.seriesKey).isSome = true) :
    ∃ W, applyCallsO S L = some W := by
  induction L generalizing S with
  | nil => exact ⟨S, rfl⟩
  | cons c L ih =>
    obtain ⟨S₁, hsg⟩ := setGauge_isSome_of_key (hkeys c (List.mem_cons_self _ _))
    obtain ⟨W, hW⟩ := ih (fun c' hc' => by
      rw [setGauge_key_isSome hsg]
      exact hkeys c' (List.mem_cons_of_mem _ hc'))
    exact ⟨W, by rw [applyCallsO, hsg]; exact hW⟩

theorem applyCallsO_replay_shift {L : List SetGaugeCall} :
    ∀ {S S₁ : Sink} {k : String} {l : List String} {u : ℚ},
      (∀ c' ∈ L, addrIn S c' = true) → setGauge S ⟨k, l, u⟩ = some S₁ →
      ∃ Wa Wb, applyCallsO S L = some Wa ∧ applyCallsO S₁ L = some Wb ∧
        ∀ v, setGauge Wb ⟨k, l, v⟩ = setGauge Wa ⟨k, l, v⟩ := by
  induction L with
  | nil =>
    intro S S₁ k l u _ hsg
    exact ⟨S, S₁, rfl, rfl, fun v => setGauge_absorb hsg⟩
  | cons c' L ih =>
    intro S S₁ k l u hL hsg
    have haddr : addrIn S c' = true := hL c' (List.mem_cons_self _ _)
    obtain ⟨T, hT⟩ := setGauge_isSome_of_key (addrIn_key_isSome haddr)
    have hkey₁ : (lookupA S₁ c'.seriesKey).isSome = true := by
      rw [setGauge_key_isSome hsg]
      exact addrIn_key_isSome haddr
    obtain ⟨T₁, hT₁⟩ := setGauge_isSome_of_key hkey₁
    have hLT : ∀ c'' ∈ L, addrIn T c'' = true :=
      fun c'' hc'' => setGauge_addrIn_mono hT (hL c'' (List.mem_cons_of_mem _ hc''))
    by_cases hsame : c'.seriesKey = k ∧ c'.labelValues = l
    · have habs : setGauge S₁ c' = setGauge S c' := by
        have h2 : setGauge S₁ ⟨c'.seriesKey, c'.labelValues, c'.value⟩ =
            setGauge S ⟨c'.seriesKey, c'.labelValues, c'.value⟩ := by
          rw [hsame.1, hsame.2]
          exact setGauge_absorb hsg
        exact h2
      have hT₁T : T₁ = T := by
        rw [habs, hT] at hT₁
        injection hT₁ with h2
        exact h2.symm
      subst hT₁T
      obtain ⟨W, hW⟩ := applyCallsO_isSome (fun c'' hc'' => addrIn_key_isSome (hLT c'' hc''))
      refine ⟨W, W, ?_, ?_, fun v => rfl⟩
      · rw [applyCallsO, hT]
        exact hW
      · rw [applyCallsO, hT₁]
        exact hW
    · have hdiff : k ≠ c'.seriesKey ∨ l ≠ c'.labelValues := by
        rcases Decidable.not_and_iff_or_not.mp hsame with h2 | h2
        · exact Or.inl (fun hEq => h2 hEq.symm)
        · exact Or.inr (fun hEq => h2 hEq.symm)
      have hsq : setGauge S₁ c' = setGauge T ⟨k, l, u⟩ :=
        setGauge_comm hdiff haddr hsg hT
      have hT₁' : setGauge T ⟨k, l, u⟩ = some T₁ := by
        rw [← hsq]
        exact hT₁
      obtain ⟨Wa, Wb, hWa, hWb, hfin⟩ := ih hLT hT₁'
      refine ⟨Wa, Wb, ?_, ?_, hfin⟩
      · rw [applyCallsO, hT]
        exact hWa
      · rw [applyCallsO, hT₁]
        exact hWb

theorem applyCallsO_singleton (S : Sink) (c : SetGaugeCall) :
    applyCallsO S [c] = setGauge S c := by
  cases hsg : setGauge S c <;> simp [applyCallsO, hsg]

theorem applyCallsO_idem {L : List SetGaugeCall} {S S₁ : Sink}
    (h : applyCallsO S L = some S₁) : applyCallsO S₁ L = some S₁ := by
  induction L using List.reverseRecOn generalizing S S₁ with
  | nil =>
    rw [applyCallsO] at h
    injection h with h
    subst h
    rfl
  | append_singleton L c ih =>
    rw [applyCallsO_append] at h
    cases hfirst : applyCallsO S L with
    | none => rw [hfirst] at h; simp at h
    | some W =>
      rw [hfirst, Option.some_bind, applyCallsO_singleton] at h
      have hsg : setGauge W c = some S₁ := h
      have hWW : applyCallsO W L = some W := ih hfirst
      have haddrs := applyCallsO_addrs hfirst
      obtain ⟨Wa, Wb, hWa, hWb, hfin⟩ := applyCallsO_replay_shift haddrs hsg
      have hWaW : Wa = W := by
        rw [hWW] at hWa
        injection hWa with h2
        exact h2.symm
      subst hWaW
      rw [applyCallsO_append, hWb, Option.some_bind]
      have hfinal : setGauge Wb c = some S₁ := by
        have h2 : setGauge Wb c = setGauge Wa c := hfin c.value
        rw [h2, hsg]
      rw [applyCallsO, hfinal]
      rfl

theorem pm_type_iff : ∀ t ∈ sensor_types,
    (strStartsWith t "PM" = true ↔ (t = PM10 ∨ t = PM2)) := by
  decide

theorem callOf_seriesKey (dev : String) (d : tasmotaSensorData) :
    (callOf dev d).seriesKey = if strStartsWith d.Type_ "PM" then "pm" else d.Type_ := by
  by_cases h : strStartsWith d.Type_ "PM" = true
  · simp [callOf, h]
  · simp [callOf, h]

/-! ## Claim theorems -/

/-- C1: evidence against the claim (the decoder is dead as written).  The
claim says decode produces exactly one Reading per (hardware, SensorType)
pair present.  In the source, nested mappings reach `getSingleReadout` as
`map[string]interface{}` values (what the imported yaml.v3 produces), while
the line-80 assertion demands `map[interface{}]interface{}`; the assertion
therefore fails for every field, so decode of ANY yaml.v3-decoded payload
(one containing no `map[interface{}]interface{}` value) returns zero
readings — in particular at the spec's own Example 1 payload, which the
claim requires to decode to two readings. -/
theorem C1_decoder_emits_nothing :
    (∀ m : List (String × GoValue), (∀ p ∈ m, isMapII p.2 = false) →
      getSensorData m = []) ∧
      unmarshalSensor (.vMap [("SI7021",
        GoValue.vMap [("Temperature", .vFloat (43 / 2)), ("Humidity", .vInt 55)])]) =
        .ok [] := by
  constructor
  · intro m hm
    have hblocks : ∀ name ∈ sensor_names, hardwareReadouts m name = [] := by
      intro name _
      cases hl : lookupA m name with
      | none => rw [hardwareReadouts, hl]
      | some tmp =>
        have hni : isMapII tmp = false := hm _ (lookupA_mem hl)
        rw [hardwareReadouts, hl]
        show sensor_types.filterMap (fun t => (getSingleReadout name t tmp).toOption) = []
        apply List.filterMap_eq_nil_iff.mpr
        intro t _
        rw [getSingleReadout_not_mapII hni]
        rfl
    rw [getSensorData, List.map_congr_left hblocks]
    rfl
  · rfl

/-- C1 witness: the spec's Example 1 payload is yaml.v3-shaped (contains no
`map[interface{}]interface{}` value) and the theorem instantiates at it:
decode emits no reading at all. -/
theorem C1_decoder_emits_nothing_witness :
    (∀ p ∈ ([("SI7021",
        GoValue.vMap [("Temperature", GoValue.vFloat (43 / 2)), ("Humidity", GoValue.vInt 55)])] :
      List (String × GoValue)), isMapII p.2 = false) ∧
      getSensorData [("SI7021",
        GoValue.vMap [("Temperature", GoValue.vFloat (43 / 2)),
          ("Humidity", GoValue.vInt 55)])] = [] :=
  ⟨by decide, C1_decoder_emits_nothing.1 _ (by decide)⟩

/-- C8: permuting the top-level key order of a payload (a mapping, hence with
distinct keys) yields an identical decoded report, and the emitted readings
are always ordered by whitelist (hardware) order and then by SensorType
order, independent of payload key order. -/
theorem C8_decode_order_independent :
    (∀ m m' : List (String × GoValue), (m.map Prod.fst).Nodup → m.Perm m' →
      unmarshalSensor (.vMap m) = unmarshalSensor (.vMap m')) ∧
      (∀ m : List (String × GoValue), (getSensorData m).Pairwise readingOrder) := by
  constructor
  · intro m m' hnd hp
    show Except.ok (getSensorData m) = Except.ok (getSensorData m')
    rw [getSensorData_congr (lookupA_perm hp hnd)]
  · exact getSensorData_pairwise

/-- C8 witness: a concrete two-entry payload and its key-order permutation
decode identically, and a concrete decode is ordered. -/
theorem C8_decode_order_independent_witness :
    (([("SI7021", GoValue.vMapII [("Temperature", GoValue.vInt 21)]),
        ("BMP280", GoValue.vMapII [("Pressure", GoValue.vInt 1000)])].map Prod.fst).Nodup ∧
      unmarshalSensor (.vMap [("SI7021", GoValue.vMapII [("Temperature", GoValue.vInt 21)]),
          ("BMP280", GoValue.vMapII [("Pressure", GoValue.vInt 1000)])]) =
        unmarshalSensor (.vMap [("BMP280", GoValue.vMapII [("Pressure", GoValue.vInt 1000)]),
          ("SI7021", GoValue.vMapII [("Temperature", GoValue.vInt 21)])])) ∧
      (getSensorData examplePayloadPM).Pairwise readingOrder :=
  ⟨⟨by decide,
    C8_decode_order_independent.1 _ _ (by decide) (List.Perm.swap _ _ _)⟩,
    C8_decode_order_independent.2 examplePayloadPM⟩

/-- C5: for every topic string, the Topic Filter returns true if and only if
splitting the topic on the "/" delimiter yields exactly three segments and the
third segment equals "SENSOR".  (Side-effect freedom holds by construction:
`isTasmotaSensorMessage` is a pure function of its argument.) -/
theorem C5_topic_filter (topic : String) :
    isTasmotaSensorMessage topic = true ↔
      ∃ a b, stringsSplit topic '/' = [a, b, "SENSOR"] := by
  rw [isTasmotaSensorMessage]
  exact length_getD_eq_triple (stringsSplit topic '/')

/-- C2: evidence against the claim.  At the payload
`{SI7021: {Temperature: "hot", Humidity: 55}}` the claim requires that the
non-numeric `Temperature` field is skipped while the numeric `Humidity`
field of the same entry still decodes normally.  In the source the nested
mapping arrives as `map[string]interface{}` (yaml.v3) and the line-80
exact-type assertion fails before any field is examined, so NO reading is
emitted for the whole entry: in particular the remaining numeric field does
not decode either.  (Had the assertion passed, the missing default clause of
the type switch would additionally have emitted a zero-valued reading for
the non-numeric field instead of skipping it.) -/
theorem C2_remaining_fields_do_not_decode :
    unmarshalSensor
        (.vMap [("SI7021", .vMap [("Temperature", .vStr "hot"), ("Humidity", .vInt 55)])]) =
      .ok [] := by
  rfl

/-- C9 counterexample: the claim asserts six non-PM sensor types (seven
registered series in total) and a `"pm"` series with label names
`sensor_name, resolution`.  The constructed collector registers only five
series (four non-PM types plus `"pm"`), and the `"pm"` series carries the
label names `tasmota_instance, sensor_name, resolution`. -/
theorem C9_counterexample :
    (newPrometheusTasmotaSensorCollector "prom").length ≠ 7 ∧
      (lookupA (newPrometheusTasmotaSensorCollector "prom") "pm").map GaugeVec.labelNames ≠
        some ["sensor_name", "resolution"] := by
  decide

/-- C9 (amended): at startup exactly one gauge series is registered for each
of the FOUR non-PM sensor types (Temperature, Pressure, Humidity,
Illuminance), each with label names `tasmota_instance, sensor_name`, plus
exactly one shared `"pm"` series with label names
`tasmota_instance, sensor_name, resolution`; no other series is registered. -/
theorem C9_registration (pfx : String) :
    newPrometheusTasmotaSensorCollector pfx =
      [ (Temperature, ⟨pfx ++ "_tasmota_sensor_temperature", "Temperature tasmota sensor data",
          ["tasmota_instance", "sensor_name"], []⟩),
        (Pressure, ⟨pfx ++ "_tasmota_sensor_pressure", "Pressure tasmota sensor data",
          ["tasmota_instance", "sensor_name"], []⟩),
        (Humidity, ⟨pfx ++ "_tasmota_sensor_humidity", "Humidity tasmota sensor data",
          ["tasmota_instance", "sensor_name"], []⟩),
        (Illuminance, ⟨pfx ++ "_tasmota_sensor_illuminance", "Illuminance tasmota sensor data",
          ["tasmota_instance", "sensor_name"], []⟩),
        ("pm", ⟨pfx ++ "_tasmota_pm", "PM tasmota entity",
          ["tasmota_instance", "sensor_name", "resolution"], []⟩) ] := by
  rfl

/-- C3: for a report whose readings carry canonical sensor types (as the
decoder guarantees), the Metric Mapper performs exactly one gauge update per
reading, in report order: readings of type PM10 or PM2.5 update the shared
`"pm"` series with the resolution label value equal to the type string, and
all other readings update the series named after their type with label values
`(deviceName, sensorName)` and no resolution label value. -/
theorem C3_mapper_calls (dev : String) (sensors : List tasmotaSensorData)
    (sink out : Sink) (tr : List SetGaugeCall)
    (hty : ∀ d ∈ sensors, d.Type_ ∈ sensor_types)
    (h : updateState ⟨dev, sensors⟩ sink = some (out, tr)) :
    tr = sensors.map (fun d =>
      if d.Type_ = PM10 ∨ d.Type_ = PM2 then
        (⟨"pm", [dev, d.SensorName, d.Type_], d.Value⟩ : SetGaugeCall)
      else
        ⟨d.Type_, [dev, d.SensorName], d.Value⟩) := by
  rw [updateState, updateStateAux_eq_applyCallsO] at h
  cases happ : applyCallsO sink (sensors.map (callOf dev)) with
  | none => rw [happ] at h; simp at h
  | some W =>
    rw [happ] at h
    have h2 : (W, sensors.map (callOf dev)) = (out, tr) := by
      injection h
    have htr : sensors.map (callOf dev) = tr := congrArg Prod.snd h2
    rw [← htr]
    apply List.map_congr_left
    intro d hd
    have htd := hty d hd
    by_cases hpm : strStartsWith d.Type_ "PM" = true
    · rw [callOf, if_neg (fun hn => hn hpm),
        if_pos ((pm_type_iff d.Type_ htd).mp hpm)]
    · rw [callOf, if_pos hpm,
        if_neg (fun hor => hpm ((pm_type_iff d.Type_ htd).mpr hor))]

/-- C3 witness: the mapper calls for a concrete report with one Temperature
and one PM10 reading. -/
theorem C3_mapper_calls_witness :
    (∀ d ∈ exampleReport.Sensors, d.Type_ ∈ sensor_types) ∧
      ([⟨"Temperature", ["dev1", "SI7021"], (21 : ℚ)⟩,
        ⟨"pm", ["dev1", "SDS0X1", "PM10"], 3⟩] : List SetGaugeCall) =
        exampleReport.Sensors.map (fun d =>
          if d.Type_ = PM10 ∨ d.Type_ = PM2 then
            (⟨"pm", ["dev1", d.SensorName, d.Type_], d.Value⟩ : SetGaugeCall)
          else
            ⟨d.Type_, ["dev1", d.SensorName], d.Value⟩) :=
  ⟨by decide,
    C3_mapper_calls "dev1" exampleReport.Sensors exampleSink
      [("Temperature", ⟨"n1", "h1", ["a", "b"], [(["dev1", "SI7021"], 21)]⟩),
        ("pm", ⟨"n2", "h2", ["a", "b", "c"], [(["dev1", "SDS0X1", "PM10"], 3)]⟩)]
      [⟨"Temperature", ["dev1", "SI7021"], 21⟩, ⟨"pm", ["dev1", "SDS0X1", "PM10"], 3⟩]
      (by decide) (by decide)⟩

/-- C7: applying the same DeviceReport to the metric sink twice in sequence
leaves the sink in the same state as applying it once (every gauge update is
last-write-wins), with the same gauge-update trace. -/
theorem C7_update_idempotent (sensor : tasmotaSensor) (S S₁ : Sink)
    (tr : List SetGaugeCall) (h : updateState sensor S = some (S₁, tr)) :
    updateState sensor S₁ = some (S₁, tr) := by
  rw [updateState, updateStateAux_eq_applyCallsO] at h ⊢
  cases happ : applyCallsO S (sensor.Sensors.map (callOf sensor.DeviceName)) with
  | none => rw [happ] at h; simp at h
  | some W =>
    rw [happ] at h
    have h2 : (W, sensor.Sensors.map (callOf sensor.DeviceName)) = (S₁, tr) := by
      injection h
    have hW : W = S₁ := congrArg Prod.fst h2
    have htr : sensor.Sensors.map (callOf sensor.DeviceName) = tr := congrArg Prod.snd h2
    subst hW
    rw [applyCallsO_idem happ, Option.map_some']
    rw [htr]

/-- C7 witness: one application of a concrete report to a concrete sink, and
the second application returning the identical sink and trace. -/
theorem C7_update_idempotent_witness :
    updateState ⟨"dev1", [⟨Temperature, "SI7021", 21⟩]⟩
        [("Temperature", ⟨"n1", "h1", ["a", "b"], []⟩)] =
      some ([("Temperature", ⟨"n1", "h1", ["a", "b"], [(["dev1", "SI7021"], 21)]⟩)],
        [⟨"Temperature", ["dev1", "SI7021"], 21⟩]) ∧
      updateState ⟨"dev1", [⟨Temperature, "SI7021", 21⟩]⟩
          [("Temperature", ⟨"n1", "h1", ["a", "b"], [(["dev1", "SI7021"], 21)]⟩)] =
        some ([("Temperature", ⟨"n1", "h1", ["a", "b"], [(["dev1", "SI7021"], 21)]⟩)],
          [⟨"Temperature", ["dev1", "SI7021"], 21⟩]) :=
  ⟨by decide,
    C7_update_idempotent ⟨"dev1", [⟨Temperature, "SI7021", 21⟩]⟩
      [("Temperature", ⟨"n1", "h1", ["a", "b"], []⟩)]
      [("Temperature", ⟨"n1", "h1", ["a", "b"], [(["dev1", "SI7021"], 21)]⟩)]
      [⟨"Temperature", ["dev1", "SI7021"], 21⟩]
      (by decide)⟩

/-- C6: for every payload and every field whose name ends in the reserved
suffix "Unit", no Reading is ever produced from that field: every reading the
decoder emits is read from the field named by its (canonical) sensor type,
and no canonical sensor-type name ends in "Unit". -/
theorem C6_unit_fields_never_produce_readings
    (m : List (String × GoValue)) (fname : String) (hu : unit_fields fname = true) :
    ∀ r ∈ getSensorData m,
      r.Type_ ∈ sensor_types ∧ unit_fields r.Type_ = false ∧ r.Type_ ≠ fname ∧
        ∃ fields v, lookupA m r.SensorName = some (.vMapII fields) ∧
          lookupA fields r.Type_ = some v := by
  intro r hr
  obtain ⟨name, _, hb⟩ := mem_getSensorData.mp hr
  obtain ⟨hN, hT, fields, v, h1, h2, _⟩ := mem_hardwareReadouts hb
  have hunit : unit_fields r.Type_ = false := unit_fields_of_sensor_type _ hT
  refine ⟨hT, hunit, ?_, fields, v, ?_, h2⟩
  · intro he
    rw [he, hu] at hunit
    exact Bool.noConfusion hunit
  · rw [hN]; exact h1

/-- C6 witness: at the spec's example payload with the reserved field
`PM10Unit`, the theorem applies and in particular no decoded reading has type
string `"PM10Unit"`. -/
theorem C6_unit_fields_never_produce_readings_witness :
    unit_fields "PM10Unit" = true ∧
      ∀ r ∈ getSensorData examplePayloadPM,
        r.Type_ ∈ sensor_types ∧ unit_fields r.Type_ = false ∧ r.Type_ ≠ "PM10Unit" ∧
          ∃ fields v, lookupA examplePayloadPM r.SensorName = some (GoValue.vMapII fields) ∧
            lookupA fields r.Type_ = some v :=
  ⟨by decide, C6_unit_fields_never_produce_readings examplePayloadPM "PM10Unit" (by decide)⟩

/-- C10: for a report whose readings all carry canonical sensor types (as the
decoder guarantees), every gauge lookup of `updateState` on the
construction-time sink hits a registered series: PM-prefixed types resolve to
the registered `"pm"` series, every other type string is itself a registered
series key, and the whole update succeeds (no `nil` series is ever
dereferenced). -/
theorem C10_no_missing_series (pfx dev : String) (sensors : List tasmotaSensorData)
    (hty : ∀ d ∈ sensors, d.Type_ ∈ sensor_types) :
    (∀ d ∈ sensors,
      (callOf dev d).seriesKey ∈ (newPrometheusTasmotaSensorCollector pfx).map Prod.fst ∧
        (strStartsWith d.Type_ "PM" = true → (callOf dev d).seriesKey = "pm") ∧
        (strStartsWith d.Type_ "PM" = false → (callOf dev d).seriesKey = d.Type_)) ∧
      ∃ res, updateState ⟨dev, sensors⟩ (newPrometheusTasmotaSensorCollector pfx) = some res := by
  have hkeyOf : ∀ t ∈ sensor_types,
      (lookupA (newPrometheusTasmotaSensorCollector pfx)
        (if strStartsWith t "PM" then "pm" else t)).isSome = true := by
    intro t ht
    simp only [sensor_types, List.mem_cons, List.not_mem_nil, or_false] at ht
    rcases ht with h | h | h | h | h | h <;> (rw [h]; rfl)
  constructor
  · intro d hd
    have htd := hty d hd
    refine ⟨?_, ?_, ?_⟩
    · rw [callOf_seriesKey,
        show (newPrometheusTasmotaSensorCollector pfx).map Prod.fst =
          ["Temperature", "Pressure", "Humidity", "Illuminance", "pm"] from rfl]
      simp only [sensor_types, List.mem_cons, List.not_mem_nil, or_false] at htd
      rcases htd with h | h | h | h | h | h <;> (rw [h]; decide)
    · intro h
      rw [callOf_seriesKey, if_pos h]
    · intro h
      rw [callOf_seriesKey, if_neg (by rw [h]; exact Bool.false_ne_true)]
  · rw [updateState, updateStateAux_eq_applyCallsO]
    have hkeys : ∀ c ∈ sensors.map (callOf dev),
        (lookupA (newPrometheusTasmotaSensorCollector pfx) c.seriesKey).isSome = true := by
      intro c hc
      obtain ⟨d, hd, rfl⟩ := List.mem_map.mp hc
      rw [callOf_seriesKey]
      exact hkeyOf d.Type_ (hty d hd)
    obtain ⟨W, hW⟩ := applyCallsO_isSome hkeys
    exact ⟨(W, sensors.map (callOf dev)), by rw [hW]; rfl⟩

/-- C10 witness: the safety statement instantiated at a concrete report
against the collector built with prefix `"prom"`. -/
theorem C10_no_missing_series_witness :
    (∀ d ∈ exampleReport.Sensors, d.Type_ ∈ sensor_types) ∧
      ((∀ d ∈ exampleReport.Sensors,
        (callOf "dev1" d).seriesKey ∈
          (newPrometheusTasmotaSensorCollector "prom").map Prod.fst ∧
          (strStartsWith d.Type_ "PM" = true → (callOf "dev1" d).seriesKey = "pm") ∧
          (strStartsWith d.Type_ "PM" = false → (callOf "dev1" d).seriesKey = d.Type_)) ∧
        ∃ res, updateState ⟨"dev1", exampleReport.Sensors⟩
          (newPrometheusTasmotaSensorCollector "prom") = some res) :=
  ⟨by decide, C10_no_missing_series "prom" "dev1" exampleReport.Sensors (by decide)⟩

theorem collectorRun_cons_drop {m : Message} {rest : List Message}
    (hf : isTasmotaSensorMessage m.topic = false) :
    collectorRun (m :: rest) = collectorRun rest := by
  rw [collectorRun, receiveMessage, if_neg (by rw [hf]; exact Bool.false_ne_true)]

theorem collectorRun_cons_fatal {m : Message} {rest : List Message} {e : String}
    (hf : isTasmotaSensorMessage m.topic = true)
    (hu : unmarshalSensor m.payload = .error e) :
    collectorRun (m :: rest) = ([], true) := by
  rw [collectorRun, receiveMessage, if_pos hf]
  show (match unmarshalSensor m.payload with
    | Except.error _ => (([] : List tasmotaSensor), true)
    | Except.ok sensors =>
      (⟨m.deviceName, sensors⟩ :: (collectorRun rest).1, (collectorRun rest).2)) = _
  rw [hu]

theorem collectorRun_cons_pass {m : Message} {rest : List Message}
    {sensors : List tasmotaSensorData}
    (hf : isTasmotaSensorMessage m.topic = true)
    (hu : unmarshalSensor m.payload = .ok sensors) :
    collectorRun (m :: rest) =
      (⟨m.deviceName, sensors⟩ :: (collectorRun rest).1, (collectorRun rest).2) := by
  rw [collectorRun, receiveMessage, if_pos hf]
  show (match unmarshalSensor m.payload with
    | Except.error _ => (([] : List tasmotaSensor), true)
    | Except.ok sensors =>
      (⟨m.deviceName, sensors⟩ :: (collectorRun rest).1, (collectorRun rest).2)) = _
  rw [hu]

/-- C4: when a message passes the topic filter but its payload fails
structural decoding, the ingestion loop returns (transitions to Stopped) and
never processes any message delivered after it — the run over
`pre ++ bad :: post` equals the run over `pre ++ [bad]` for EVERY `post`, and
the early-stop flag is set; conversely, over a channel with no fatal message
the loop only stops when the channel closes (the flag stays unset). -/
theorem C4_loop_stops_on_decode_failure :
    (∀ (pre post : List Message) (bad : Message), isFatal bad = true →
      collectorRun (pre ++ bad :: post) = collectorRun (pre ++ [bad]) ∧
        (collectorRun (pre ++ bad :: post)).2 = true) ∧
      (∀ msgs : List Message, (∀ m ∈ msgs, isFatal m = false) →
        (collectorRun msgs).2 = false) := by
  constructor
  · intro pre post bad hbad
    rw [isFatal, Bool.and_eq_true] at hbad
    obtain ⟨hf, hd⟩ := hbad
    have herr : ∃ e, unmarshalSensor bad.payload = Except.error e := by
      cases hu : unmarshalSensor bad.payload with
      | error e => exact ⟨e, rfl⟩
      | ok sensors => rw [hu] at hd; simp at hd
    obtain ⟨e, hu⟩ := herr
    induction pre with
    | nil =>
      simp only [List.nil_append]
      rw [collectorRun_cons_fatal hf hu, collectorRun_cons_fatal hf hu]
      exact ⟨rfl, rfl⟩
    | cons m pre ih =>
      simp only [List.cons_append]
      cases hfm : isTasmotaSensorMessage m.topic with
      | false =>
        rw [collectorRun_cons_drop hfm, collectorRun_cons_drop hfm]
        exact ih
      | true =>
        cases hum : unmarshalSensor m.payload with
        | error e' =>
          rw [collectorRun_cons_fatal hfm hum, collectorRun_cons_fatal hfm hum]
          exact ⟨rfl, rfl⟩
        | ok sensors =>
          rw [collectorRun_cons_pass hfm hum, collectorRun_cons_pass hfm hum]
          exact ⟨by rw [ih.1], ih.2⟩
  · intro msgs hall
    induction msgs with
    | nil => rfl
    | cons m rest ih =>
      have ih' := ih (fun m' hm' => hall m' (List.mem_cons_of_mem _ hm'))
      cases hfm : isTasmotaSensorMessage m.topic with
      | false =>
        rw [collectorRun_cons_drop hfm]
        exact ih'
      | true =>
        cases hum : unmarshalSensor m.payload with
        | error e =>
          exfalso
          have hm := hall m (List.mem_cons_self _ _)
          rw [isFatal, hfm, hum] at hm
          simp at hm
        | ok sensors =>
          rw [collectorRun_cons_pass hfm hum]
          exact ih'

/-- C4 witness: a concrete channel with a good message, then a structurally
malformed one, then another good message: the run stops at the malformed
message and is unchanged by what follows it; a fatal-free channel runs to
channel close. -/
theorem C4_loop_stops_on_decode_failure_witness :
    isFatal exampleBadMessage = true ∧
      (collectorRun ([exampleGoodMessage] ++ exampleBadMessage :: [exampleGoodMessage]) =
        collectorRun ([exampleGoodMessage] ++ [exampleBadMessage]) ∧
        (collectorRun ([exampleGoodMessage] ++ exampleBadMessage :: [exampleGoodMessage])).2 =
          true) ∧
      ((∀ m ∈ [exampleGoodMessage], isFatal m = false) ∧
        (collectorRun [exampleGoodMessage]).2 = false) :=
  ⟨by decide,
    C4_loop_stops_on_decode_failure.1 [exampleGoodMessage] [exampleGoodMessage]
      exampleBadMessage (by decide),
    by decide,
    C4_loop_stops_on_decode_failure.2 [exampleGoodMessage] (by decide)⟩

end Tasmota
